import Mathlib

/-!
Verification development for the NRK-Downloader repository.

The repository is a Next.js service whose download endpoint
(`src/app/api/download/route.ts`) validates a submitted URL against a host
allow-list (`src/lib/host.ts`), rate-limits clients (`src/lib/rateLimit.ts`,
shipped in `src/lib/env.ts`-adjacent sources), sanitizes filenames
(`src/lib/filename.ts`), and streams the output of a spawned `yt-dlp`
subprocess back to the client, with a temp-file fallback.

This file gives a shallow embedding of that logic.  JavaScript strings are
modelled either as Lean `String` (sequences of Unicode code points, used where
the source only manipulates ASCII) or as `List Nat` of UTF-16 code units
(used for `sanitizeFilename`, whose regexes run without the `u` flag and
therefore operate per code unit).  External effects (the WHATWG URL parser,
the body parser, subprocess events, the temp-directory listing) are supplied
as oracle data in an environment record, and the handler is a pure function
from that environment to a response plus an ordered trace of the observable
actions it performs.
-/

/-! ## Models of the JavaScript string primitives used by the sources -/

/-- Code units matched by the JavaScript regex class `\s` and trimmed by
`String.prototype.trim`: tab, LF, VT, FF, CR, space, NBSP, and the Unicode
space separators plus the BOM. -/
def isJsWsUnit (c : Nat) : Bool :=
  c = 0x09 || c = 0x0A || c = 0x0B || c = 0x0C || c = 0x0D || c = 0x20 ||
  c = 0xA0 || c = 0x1680 || (0x2000 ≤ c && c ≤ 0x200A) ||
  c = 0x2028 || c = 0x2029 || c = 0x202F || c = 0x205F || c = 0xFEFF

/-- Character version of `isJsWsUnit`. -/
def isJsWsChar (c : Char) : Bool := isJsWsUnit c.toNat

/-- The ASCII case pairs. -/
def upperLower : List (Char × Char) :=
  [('A', 'a'), ('B', 'b'), ('C', 'c'), ('D', 'd'), ('E', 'e'), ('F', 'f'),
   ('G', 'g'), ('H', 'h'), ('I', 'i'), ('J', 'j'), ('K', 'k'), ('L', 'l'),
   ('M', 'm'), ('N', 'n'), ('O', 'o'), ('P', 'p'), ('Q', 'q'), ('R', 'r'),
   ('S', 's'), ('T', 't'), ('U', 'u'), ('V', 'v'), ('W', 'w'), ('X', 'x'),
   ('Y', 'y'), ('Z', 'z')]

/-- ASCII lowercasing of one character, as `String.prototype.toLowerCase`
acts on the ASCII range (the inputs fed to it by the sources are hostnames
and URL paths). -/
def charLower (c : Char) : Char :=
  ((upperLower.find? (fun p => p.1 = c)).map Prod.snd).getD c

/-- Model of `s.toLowerCase()`. -/
def jsToLower (s : String) : String := ⟨s.data.map charLower⟩

/-- Drop JS whitespace from both ends of a character list. -/
def trimListChar (l : List Char) : List Char :=
  ((l.dropWhile isJsWsChar).reverse.dropWhile isJsWsChar).reverse

/-- Model of `s.trim()`. -/
def jsTrim (s : String) : String := ⟨trimListChar s.data⟩

/-- Model of `s.startsWith(p)`. -/
def jsStartsWith (s p : String) : Bool := p.data.isPrefixOf s.data

/-- Model of `s.slice(4)` on a string of BMP characters. -/
def jsSlice4 (s : String) : String := ⟨s.data.drop 4⟩

/-- Fuelled worker for `jsSplit`; the fuel is an upper bound on the input
length, so the `0, l` arm is never reached from `jsSplit`. -/
def jsSplitF (sep : List Char) : Nat → List Char → List (List Char)
  | _, [] => [[]]
  | 0, l => [l]
  | fuel + 1, c :: rest =>
    if sep ≠ [] ∧ sep.isPrefixOf (c :: rest) then
      [] :: jsSplitF sep fuel (rest.drop (sep.length - 1))
    else
      match jsSplitF sep fuel rest with
      | [] => [[c]]
      | p :: ps => (c :: p) :: ps

/-- Model of `s.split(sep)` for a nonempty string separator. -/
def jsSplit (sep l : List Char) : List (List Char) := jsSplitF sep l.length l

/-- Model of `s.includes(sub)` for a nonempty `sub`. -/
def jsIncludes (s sub : String) : Bool :=
  decide (2 ≤ (jsSplit sub.data s.data).length)

/-! ## Model of the external npm punycode library (src/lib/host.ts imports it)

The library is not part of this repository.  Its `toASCII` maps each
dot-separated label of a host to itself when the label is pure ASCII, and
otherwise to an `xn--`-prefixed pure-ASCII, lowercase Punycode form
(RFC 3492).  The exact RFC 3492 digit stream never matters to the
repository's logic, so the model keeps the library's structural contract:
ASCII labels are untouched, non-ASCII labels become `xn--` followed by the
label's ASCII characters, a delimiter, and a lowercase base-26 rendering of
the remaining code points. -/

/-- Split a character list at every dot, as the punycode library splits a
domain into labels. -/
def splitDot : List Char → List (List Char)
  | [] => [[]]
  | c :: rest =>
    match splitDot rest with
    | [] => [[c]]
    | l :: ls => if c = '.' then [] :: l :: ls else (c :: l) :: ls

/-- Rejoin labels with dots. -/
def joinDot : List (List Char) → List Char
  | [] => []
  | [l] => l
  | l :: ls => l ++ '.' :: joinDot ls

/-- Whether a character is basic (ASCII) in the sense of RFC 3492. -/
def isBasicChar (c : Char) : Bool := decide (c.toNat < 128)

/-- Whether a whole label is ASCII. -/
def isBasicLabel (l : List Char) : Bool := l.all isBasicChar

/-- The lowercase ASCII letters, the digit alphabet of the model encoding. -/
def lowerAlphabet : List Char := "abcdefghijklmnopqrstuvwxyz".data

/-- One base-26 digit. -/
def punyDigit (n : Nat) : Char :=
  lowerAlphabet.get ⟨n % 26, by
    have h : lowerAlphabet.length = 26 := rfl
    rw [h]; exact Nat.mod_lt _ (by omega)⟩

/-- Lowercase base-26 rendering of a code point. -/
def puny26 (n : Nat) : List Char :=
  if n < 26 then [punyDigit n]
  else puny26 (n / 26) ++ [punyDigit n]
termination_by n
decreasing_by exact Nat.div_lt_self (by omega) (by omega)

/-- Encoded form of a non-ASCII label: the `xn--` prefix, the label's ASCII
characters, a delimiter, then the rendering of the non-ASCII code points. -/
def encodeLabel (l : List Char) : List Char :=
  'x' :: 'n' :: '-' :: '-' ::
    (l.filter isBasicChar ++
      '-' :: (l.filter (fun c => !isBasicChar c)).foldr
        (fun c acc => puny26 c.toNat ++ acc) [])

/-- Model of `punycode.toASCII` (total; the library throws only on overflow,
and `normalizeHost` keeps the input unchanged in that case). -/
def toASCII (s : String) : String :=
  ⟨joinDot ((splitDot s.data).map (fun l =>
    if isBasicLabel l then l else encodeLabel l))⟩

/-! ## src/lib/host.ts -/

/-- `normalizeHost` (src/lib/host.ts lines 3-12): trim, lowercase, strip one
leading `www.`, then `punycode.toASCII` (keeping the input on failure, which
the total model never needs). -/
def normalizeHost (host : String) : String :=
  let h := jsToLower (jsTrim host)
  let h2 := if jsStartsWith h "www." then jsSlice4 h else h
  toASCII h2

/-- The regex `/^\d{1,3}(\.\d{1,3}){3}$/`: exactly four dot-separated groups
of one to three digits. -/
def isIpv4Like (s : String) : Bool :=
  let parts := jsSplit ['.'] s.data
  decide (parts.length = 4) &&
    parts.all (fun p =>
      decide (1 ≤ p.length) && decide (p.length ≤ 3) && p.all Char.isDigit)

/-- `isIpLike` (src/lib/host.ts lines 14-19). -/
def isIpLike (host : String) : Bool :=
  isIpv4Like host || host == "localhost" || host.data.contains ':'

/-- The result of the WHATWG `new URL(...)` constructor, as far as the
sources inspect it. -/
structure URLParts where
  protocol : String
  hostname : String
  pathname : String
  username : String
  password : String
deriving DecidableEq, Repr

/-- The path anchors `/^\/video\//` etc. of isAllowedUrl. -/
def videoPathPrefixes : List String :=
  ["/video/", "/serie/", "/program/", "/podkast/", "/radio/", "/tv/",
   "/super/", "/p3/"]

/-- `isAllowedUrl` (src/lib/host.ts lines 21-70).  The WHATWG parser is an
oracle `parse`; `new URL` throwing is `parse _ = none` and lands in the
catch-all `return false`.  HTTPS only, no IP-like hosts, exact host match
against the allow-list, series pages of tv/radio.nrk.no with exactly two
path segments blocked, and nrk.no/www.nrk.no restricted to video-like
paths. -/
def isAllowedUrl (parse : String → Option URLParts) (urlStr : String)
    (allowList : List String) : Bool :=
  match parse urlStr with
  | none => false
  | some u =>
    if u.protocol != "https:" then false
    else
      let host := normalizeHost u.hostname
      if isIpLike host then false
      else if !(allowList.contains host) then false
      else
        let serieBlock :=
          (host == "tv.nrk.no" || host == "radio.nrk.no") &&
          jsStartsWith (jsToLower u.pathname) "/serie/" &&
          decide (((jsSplit ['/'] (jsToLower u.pathname).data).filter
            (fun p => decide (0 < p.length))).length = 2)
        if serieBlock then false
        else if host == "nrk.no" || host == "www.nrk.no" then
          let path := jsToLower u.pathname
          if path == "/" || path == "" then false
          else videoPathPrefixes.any (fun p => jsStartsWith path p)
        else true

/-- Default of the `ALLOW_DOMAINS` environment variable
(src/lib/env.ts line 7). -/
def defaultAllowDomains : List String :=
  ["nrk.no", "tv.nrk.no", "www.nrk.no", "radio.nrk.no", "nrkbeta.no"]

/-! ## src/lib/filename.ts

`sanitizeFilename` runs regex replaces without the `u` flag, so each regex
class matches single UTF-16 code units; `.slice(0, 120)` also counts code
units.  A JavaScript string is therefore modelled as a `List Nat` of code
units.  Unicode NFKC normalization is performed by the external
`String.prototype.normalize`, which the model takes as an arbitrary function
parameter, so the theorems hold for the real normalization as well. -/

/-- The regex class `[\/\\:*?"<>|]` as code units: slash, backslash, colon,
asterisk, question mark, double quote, angle brackets, pipe. -/
def badFilenameUnits : List Nat :=
  [0x2F, 0x5C, 0x3A, 0x2A, 0x3F, 0x22, 0x3C, 0x3E, 0x7C]

/-- The regex class `[\x00-\x1F\x7F]`: ASCII control characters. -/
def isControlUnit (c : Nat) : Bool := decide (c ≤ 0x1F) || decide (c = 0x7F)

/-- The regex class `[\x20-\x7E -￿]` (per code unit, so surrogate
halves of astral characters fall into the second range and are kept). -/
def keepUnit (c : Nat) : Bool :=
  (decide (0x20 ≤ c) && decide (c ≤ 0x7E)) ||
  (decide (0xA0 ≤ c) && decide (c ≤ 0xFFFF))

/-- `.replace(/\s+/g, ' ')`: every maximal run of JS whitespace becomes one
space.  The flag records whether the previous unit was whitespace. -/
def collapseWsAux : Bool → List Nat → List Nat
  | _, [] => []
  | prevWs, c :: rest =>
    if isJsWsUnit c then
      if prevWs then collapseWsAux true rest
      else 0x20 :: collapseWsAux true rest
    else c :: collapseWsAux false rest

/-- `.trim()` on code units. -/
def jsTrimUnits (l : List Nat) : List Nat :=
  ((l.dropWhile isJsWsUnit).reverse.dropWhile isJsWsUnit).reverse

/-- `sanitizeFilename` (src/lib/filename.ts lines 80-89): NFKC-normalize,
replace the invalid-filename characters by `_`, collapse whitespace, strip
ASCII controls, replace units outside the printable ranges by `_`, trim, and
cut to 120 code units. -/
def sanitizeFilename (nfkc : List Nat → List Nat) (name : List Nat) :
    List Nat :=
  (jsTrimUnits
    ((((collapseWsAux false
        ((nfkc name).map
          (fun c => if badFilenameUnits.contains c then 0x5F else c))).filter
      (fun c => !isControlUnit c)).map
        (fun c => if keepUnit c then c else 0x5F)))).take 120

/-! ## src/lib/rateLimit.ts

The `rateLimit` function (lines 187-244 of the shipped rate-limiter source)
has two paths.  With Redis available it runs the pipeline
`zadd key now "${now}"; zremrangebyscore key 0 (now - 60000); zcard key`
and denies when the resulting cardinality exceeds the limit.  Sorted-set
members are the strings `"${now}"`, so the member set is determined by the
set of distinct timestamps and is modelled as a `List Int` of scores; `zadd`
of an existing member only updates its (identical) score.  Without Redis it
falls back to an in-memory record `{count, resetAt}` per client. -/

/-- Effect of one request at time `now` on the Redis member set: `zadd`
then `zremrangebyscore 0 (now - 60000)` (which removes scores in the closed
interval `[0, now - 60000]`). -/
def redisStep (s : List Int) (now : Int) : List Int :=
  (if s.contains now then s else now :: s).filter
    (fun t => !(decide (0 ≤ t) && decide (t ≤ now - 60000)))

/-- Member set after a history of requests, starting from an empty key. -/
def redisStateAfter (hist : List Int) : List Int := hist.foldl redisStep []

/-- Decision of the Redis path for a request at `now` after history `hist`:
`zcard` after the pipeline, allowed unless `current > limit`. -/
def rateLimitRedisAllowed (limit : Nat) (hist : List Int) (now : Int) :
    Bool :=
  decide ((redisStep (redisStateAfter hist) now).length ≤ limit)

/-- Following the claim text: the number of the client's requests falling in
the rolling 60-second window immediately preceding a request at `now`. -/
def slidingWindowCount (hist : List Int) (now : Int) : Nat :=
  (hist.filter (fun t => decide (now - 60000 < t))).length

/-- The in-memory fallback record `{ count, resetAt }`. -/
structure MemRec where
  count : Nat
  resetAt : Int
deriving DecidableEq, Repr

/-- One request through the in-memory fallback (rateLimit lines 229-243):
fetch or create the record, reset it when `now > resetAt`, increment, and
allow while `count <= limit`. -/
def memStep (limit : Nat) (rec : Option MemRec) (now : Int) :
    MemRec × Bool :=
  let r0 := rec.getD ⟨0, now + 60000⟩
  let r1 := if now > r0.resetAt then (⟨0, now + 60000⟩ : MemRec) else r0
  let r2 : MemRec := ⟨r1.count + 1, r1.resetAt⟩
  (r2, decide (r2.count ≤ limit))

/-- Decisions of the in-memory fallback over a request sequence. -/
def rateLimitMemoryRun (limit : Nat) :
    Option MemRec → List Int → List Bool
  | _, [] => []
  | rec, now :: rest =>
    (memStep limit rec now).2 ::
      rateLimitMemoryRun limit (some (memStep limit rec now).1) rest


/-! ## src/app/api/download/route.ts: the duplicated-URL cleaning step

Lines 583-598: when the body URL contains `nrk.no` at least twice, the
handler first tries the regex
`/https?:\/\/[^\/]*nrk\.no[^h]*?(?=https|$)/` and replaces the URL by its
first match; if the regex does not match it rejoins the first two pieces of
`url.split('nrk.no')`.  The regex is modelled by a small backtracking
matcher: `https?://`, then a greedy run of non-slash characters followed by
the literal `nrk.no`, then a lazy run of non-`h` characters up to a
position where `https` follows or the string ends. -/

/-- The lazy tail `[^h]*?(?=https|$)`: the least number of non-`h`
characters that reaches a position satisfying the lookahead. -/
def lazyNonH : List Char → Option Nat
  | [] => some 0
  | c :: rest =>
    if "https".data.isPrefixOf (c :: rest) then some 0
    else if c = 'h' then none
    else (lazyNonH rest).map (· + 1)

/-- Try `[^\/]*` of length exactly `k`, then `nrk.no`, then the lazy tail;
returns the total length consumed from `cs`. -/
def tryGreedyAt (cs : List Char) (k : Nat) : Option Nat :=
  if "nrk.no".data.isPrefixOf (cs.drop k) then
    (lazyNonH (cs.drop (k + 6))).map (fun j => k + 6 + j)
  else none

/-- Greedy matching with backtracking: try the longest non-slash run first,
then shorter ones. -/
def greedyLoop (cs : List Char) : Nat → Option Nat
  | 0 => tryGreedyAt cs 0
  | k + 1 =>
    match tryGreedyAt cs (k + 1) with
    | some r => some r
    | none => greedyLoop cs k

/-- Match the part of the regex after the scheme. -/
def greedyFrom (cs : List Char) : Option Nat :=
  greedyLoop cs (cs.takeWhile (· ≠ '/')).length

/-- Match the whole regex at the head of `cs`, returning the match
length. -/
def regexMatchAt (cs : List Char) : Option Nat :=
  if "https://".data.isPrefixOf cs then
    (greedyFrom (cs.drop 8)).map (8 + ·)
  else if "http://".data.isPrefixOf cs then
    (greedyFrom (cs.drop 7)).map (7 + ·)
  else none

/-- Leftmost match: scan start positions from the left. -/
def regexFindFrom : List Char → Nat → Option (Nat × Nat)
  | cs, i =>
    match regexMatchAt cs with
    | some len => some (i, len)
    | none =>
      match cs with
      | [] => none
      | _ :: rest => regexFindFrom rest (i + 1)

/-- The URL cleaning of route.ts lines 583-598. -/
def cleanUrl (url : String) : String :=
  if jsIncludes url "nrk.no" && decide (2 < (jsSplit "nrk.no".data url.data).length) then
    match regexFindFrom url.data 0 with
    | some (i, len) => ⟨(url.data.drop i).take len⟩
    | none =>
      let parts := jsSplit "nrk.no".data url.data
      if 2 ≤ parts.length then
        ⟨parts.getD 0 [] ++ "nrk.no".data ++ parts.getD 1 []⟩
      else url
  else url

example :
    cleanUrl "https://evil.com/a-nrk.no/https://tv.nrk.no/x" =
      "https://tv.nrk.no/x" := by decide

example :
    cleanUrl "https://tv.nrk.no/serie/abc/xyhttps://tv.nrk.no/serie/abc/xy" =
      "https://tv.nrk.no/serie/abc/xy" := by decide

example : cleanUrl "https://tv.nrk.no/serie/abc/xy" =
    "https://tv.nrk.no/serie/abc/xy" := by decide

/-! ## src/app/api/download/route.ts: the POST handler

Observable actions of one request, in order: attempting to parse the JSON
body, spawning `yt-dlp` to read the title (`getVideoTitle`, a `spawnSync`),
spawning the direct-stream `yt-dlp`, spawning the temp-file `yt-dlp`, and
sending a kill signal to a child.  Logging, HTTP headers and the yt-dlp
argument lists are not observed by any claim and are elided. -/

inductive Act where
  | parseBody : Act
  | spawnTitle : String → Act
  | spawnStream : String → Act
  | spawnFile : String → Act
  | kill : String → Act
deriving DecidableEq, Repr

/-- Spawn actions (all three spawn a `yt-dlp` subprocess). -/
def isSpawnAct : Act → Bool
  | .spawnTitle _ => true
  | .spawnStream _ => true
  | .spawnFile _ => true
  | _ => false

/-- The spawn actions of a trace, in order. -/
def spawnsIn (tr : List Act) : List Act := tr.filter isSpawnAct

/-- The two download spawns (direct stream and temp-file fallback). -/
def isDownloadSpawn : Act → Bool
  | .spawnStream _ => true
  | .spawnFile _ => true
  | _ => false

/-- The download spawns of a trace, in order. -/
def downloadSpawns (tr : List Act) : List Act := tr.filter isDownloadSpawn

/-- The JSON body produced by `apiError` (route.ts lines 60-76). -/
structure ErrBody where
  code : String
  message : String
  details : Option String
  requestId : Option String
  hint : Option String
  retryAfterMs : Option Nat
deriving DecidableEq, Repr

/-- A response of the handler: either a 200 streaming response (direct or
via the temp file) carrying the sanitized filename, or a JSON error with a
status. -/
inductive Resp where
  | stream : List Nat → Bool → Resp
  | json : ErrBody → Nat → Resp
deriving DecidableEq, Repr

/-- `apiError` (route.ts lines 60-76); the source defaults `status` to 400,
the model passes it explicitly at every call site. -/
def apiError (code message : String) (status : Nat) (details : Option String)
    (requestId : Option String) (hint : Option String)
    (retryAfterMs : Option Nat) : Resp :=
  .json ⟨code, message, details, requestId, hint, retryAfterMs⟩ status

/-- Outcome of the rate-limit step (route.ts lines 548-569): either
`rateLimit` resolved with its `allowed` flag, or it threw and the legacy
`rateLimitOk` fallback answered. -/
inductive RateOutcome where
  | ok : Bool → RateOutcome
  | fail : Bool → RateOutcome
deriving DecidableEq, Repr

/-- Whether the request passes the rate-limiting step. -/
def rlAllowedOf : RateOutcome → Bool
  | .ok a => a
  | .fail a => a

/-- The `url` field of the parsed body.  A value that is not a string makes
`url.includes(...)` throw inside the same `try` (→ INVALID_REQUEST), except
for array-like values, which survive `.includes` and fail the later
`typeof url !== 'string'` check (→ INVALID_URL). -/
inductive UrlField where
  | strVal : String → UrlField
  | nonStrThrows : UrlField
  | nonStrOther : UrlField
deriving DecidableEq, Repr

/-- Outcome of `await req.json()`. -/
inductive BodyOutcome where
  | throws : BodyOutcome
  | value : UrlField → Option String → BodyOutcome
deriving DecidableEq, Repr

/-- The abort/kill handler shared by both strategies (route.ts lines
273-286 and 429-445): send SIGTERM, and after the grace delay (3000 ms in
the direct strategy, 5000 ms in the fallback) send SIGKILL if
`child.killed` is still false.  Node sets `child.killed` as soon as a
signal was delivered successfully, which `sigtermDelivered` records.  Each
action is paired with its delay after the abort. -/
def onAbortKills (grace : Nat) (sigtermDelivered : Bool) :
    List (Act × Nat) :=
  (Act.kill "SIGTERM", 0) ::
    (if sigtermDelivered then [] else [(Act.kill "SIGKILL", grace)])

/-- The start timeout of the direct strategy (route.ts line 339). -/
def START_TIMEOUT_MS : Nat := 30000

/-- Outcome of the direct-stream attempt (`streamFromStdout`, route.ts
lines 262-393), as the promise settles:
`firstData` — stdout produced data before the 30 s timeout and before an
error exit, so the promise resolves with the 200 streaming response;
`startTimeout` — no stdout data within `START_TIMEOUT_MS` and no earlier
error exit, so the timeout fires, kills the child and rejects;
`exitNonzero` — the child exited with the given nonzero code before any
stdout data;
`spawnError` — the `error` event fired (the process could not start). -/
inductive DirectOutcome where
  | firstData : DirectOutcome
  | startTimeout : String → Bool → DirectOutcome
  | exitNonzero : Int → String → DirectOutcome
  | spawnError : String → DirectOutcome
deriving DecidableEq, Repr

/-- An error carried by a rejected download promise: the `code` property,
the message, and the `details` attached to it. -/
structure DlErr where
  code : String
  message : String
  details : String
deriving DecidableEq, Repr

/-- The message derivation of route.ts lines 363-373 for a nonzero exit:
scan the `ERROR:` occurrences for a first nonempty rest-of-line, otherwise
the two substring checks, otherwise a generic message. -/
def firstErrorLine : List (List Char) → Option String
  | [] => none
  | part :: rest =>
    let line := (part.dropWhile isJsWsChar).takeWhile (fun c => c ≠ '\n')
    if line.length = 0 then firstErrorLine rest
    else some (jsTrim ⟨line⟩)

/-- `errorMsg` for the direct strategy's nonzero-exit rejection. -/
def directErrorMessage (stderr : String) : String :=
  if jsIncludes stderr "ERROR" then
    match jsSplit "ERROR:".data stderr.data with
    | [] => "Download failed"
    | _ :: parts =>
      match firstErrorLine parts with
      | some m => m
      | none => "Download failed"
  else if jsIncludes stderr "Unsupported URL" then
    "Unsupported URL or video not available"
  else if jsIncludes stderr "Private video" then
    "Video is private or not available"
  else "Download failed"

/-- How the direct-stream promise settles: `none` is a resolution with the
200 response, `some e` a rejection with error `e`. -/
def directResult : DirectOutcome → Option DlErr
  | .firstData => none
  | .startTimeout stderr _ =>
    some ⟨"YTDLP_START_TIMEOUT",
      "Download timeout: yt-dlp did not start sending data", stderr⟩
  | .exitNonzero _ stderr =>
    some ⟨"YTDLP_FAILED", directErrorMessage stderr, stderr⟩
  | .spawnError m =>
    some ⟨"YTDLP_FAILED", "Failed to start download: " ++ m, m⟩

/-- Kill actions issued inside the direct attempt: only the start timeout
calls `onAbort` (exit and error events find the child already gone). -/
def directKills : DirectOutcome → List Act
  | .startTimeout _ delivered => (onAbortKills 3000 delivered).map Prod.fst
  | _ => []

/-- Outcome of the temp-file fallback (`streamFromTempFile`, route.ts lines
398-533): the child exited with a code (`none` models exit by signal) while
the temp directory held the given entries, or the `error` event fired, or
the request aborted mid-download. -/
inductive FallbackOutcome where
  | exited : Option Int → String → List String → FallbackOutcome
  | procError : String → List String → FallbackOutcome
  | aborted : Bool → List String → FallbackOutcome
deriving DecidableEq, Repr

/-- `cleanupTempFiles` (route.ts lines 123-132): unlink every entry of the
temp directory whose name starts with `prefix + "."`; the result is the
directory listing afterwards. -/
def cleanupTempFiles (pfx : String) (dir : List String) : List String :=
  dir.filter (fun entry => !(jsStartsWith entry (pfx ++ ".")))

/-- Model of `streamFromTempFile` (route.ts lines 398-533).  Returns the
settling of its promise (`Except.error` is a rejection, whose only source
is the abort handler's `new Error('Aborted')`), the final temp-directory
listing once the response has been delivered, and the kill actions it
issued.  On a nonzero exit it cleans up and resolves the 500 `YTDLP_FAILED`
error; on a zero/signal exit it looks for an output file named
`outBase + "."`..., resolving the fallback streaming response (which cleans
up when the file stream closes) or the no-output-file 500 error. -/
def streamFromTempFile (reqId : String) (safeName : List Nat)
    (fb : FallbackOutcome) : Except String Resp × List String × List Act :=
  match fb with
  | .aborted delivered dir =>
    (.error "Aborted", cleanupTempFiles reqId dir,
      (onAbortKills 5000 delivered).map Prod.fst)
  | .procError m dir =>
    (.ok (apiError "YTDLP_FAILED" "Nedlastingsprosessen feilet." 500
        (some m) (some reqId) none none),
      cleanupTempFiles reqId dir, [])
  | .exited code stderr dir =>
    if (match code with | some c => decide (c ≠ 0) | none => false) then
      (.ok (apiError "YTDLP_FAILED" "Nedlasting feilet." 500
          (some stderr) (some reqId) none none),
        cleanupTempFiles reqId dir, [])
    else
      match dir.find? (fun f => jsStartsWith f (reqId ++ ".")) with
      | none =>
        (.ok (apiError "YTDLP_FAILED" "Nedlasting feilet - fant ingen utdatafil." 500
            (some stderr) (some reqId) none none),
          cleanupTempFiles reqId dir, [])
      | some _ =>
        (.ok (.stream safeName true), cleanupTempFiles reqId dir, [])

/-- The oracle environment of one POST request: the rate-limit outcome, the
body parse outcome, the WHATWG URL parser, the configured `ALLOW_DOMAINS`,
the generated request id, the external NFKC normalizer and the title
printed by `yt-dlp`, and the outcomes of the two download strategies. -/
structure Env where
  rl : RateOutcome
  body : BodyOutcome
  parseURL : String → Option URLParts
  allowDomains : List String
  reqId : String
  nfkc : List Nat → List Nat
  title : List Nat
  direct : DirectOutcome
  fallback : FallbackOutcome

/-- Result of the handler: the response, the ordered action trace, and the
final temp-directory listing when the fallback ran. -/
structure POSTResult where
  resp : Resp
  trace : List Act
  tmpAfter : Option (List String)
deriving Repr

/-- The UTF-16 units of `".mp4"`. -/
def mp4Suffix : List Nat := [0x2E, 0x6D, 0x70, 0x34]

/-- The `POST` handler (route.ts lines 538-701).  Rate limiting first (the
denial response is identical in the `rateLimit` and `rateLimitOk` branches);
then body parsing with the duplicated-URL cleaning; then the
`!url || typeof url !== 'string'` check; then URL validation through
`isAllowedUrl` on the normalized `ALLOW_DOMAINS` (the `isAllowedNrk`
fallback is dead code in the model because `isAllowedUrl` never throws);
then the specific 400 error selection for invalid URLs; then the title
fetch, the direct-stream attempt, and on its rejection the temp-file
fallback, whose own rejection is mapped to a 500 with the error's `code`
property (absent on the only rejection, `Error('Aborted')`). -/
def POST (e : Env) : POSTResult :=
  if rlAllowedOf e.rl = false then
    ⟨apiError "RATE_LIMITED" "For mange forespørsler. Prøv igjen senere." 429
        none (some e.reqId) none (some 60000), [], none⟩
  else
    match e.body with
    | .throws =>
      ⟨apiError "INVALID_REQUEST" "Ugyldig forespørsel." 400
          none (some e.reqId) none none, [.parseBody], none⟩
    | .value uf _format =>
      match uf with
      | .nonStrThrows =>
        ⟨apiError "INVALID_REQUEST" "Ugyldig forespørsel." 400
            none (some e.reqId) none none, [.parseBody], none⟩
      | .nonStrOther =>
        ⟨apiError "INVALID_URL" "Mangler eller ugyldig URL." 400
            none (some e.reqId) none none, [.parseBody], none⟩
      | .strVal url0 =>
        let url := cleanUrl url0
        if url = "" then
          ⟨apiError "INVALID_URL" "Mangler eller ugyldig URL." 400
              none (some e.reqId) none none, [.parseBody], none⟩
        else
          let allowNorm := e.allowDomains.map normalizeHost
          if isAllowedUrl e.parseURL url allowNorm then
            let safeName := sanitizeFilename e.nfkc e.title ++ mp4Suffix
            match directResult e.direct with
            | none =>
              ⟨.stream safeName false,
                [.parseBody, .spawnTitle url, .spawnStream url] ++
                  directKills e.direct, none⟩
            | some _err =>
              let r := streamFromTempFile e.reqId safeName e.fallback
              let tr :=
                [.parseBody, .spawnTitle url, .spawnStream url] ++
                  directKills e.direct ++ [.spawnFile url] ++ r.2.2
              match r.1 with
              | .ok resp => ⟨resp, tr, some r.2.1⟩
              | .error emsg =>
                ⟨apiError "YTDLP_FAILED" "Nedlasting feilet." 500
                    (some emsg) (some e.reqId) none none, tr, some r.2.1⟩
          else
            match e.parseURL url with
            | some u =>
              if (u.hostname = "nrk.no" ∨ u.hostname = "www.nrk.no") ∧
                  (u.pathname = "/" ∨ u.pathname = "") then
                ⟨apiError "NOT_VIDEO_PAGE"
                    "Forsiden (nrk.no) er ikke en video. Vennligst lim inn en direkte lenke til en video, serie eller program." 400
                    none (some e.reqId)
                    (some "Åpne videoen du vil laste ned, og kopier lenken fra nettleseren.")
                    none, [.parseBody], none⟩
              else if u.hostname = "tv.nrk.no" ∧
                  jsStartsWith (jsToLower u.pathname) "/serie/" ∧
                  ((jsSplit ['/'] u.pathname.data).filter
                    (fun p => decide (0 < p.length))).length = 2 then
                ⟨apiError "SERIES_PAGE"
                    "Dette er en serie-side, ikke en spesifikk episode." 400
                    none (some e.reqId)
                    (some "Velg en konkret episode fra serien, og kopier lenken til den siden.")
                    none, [.parseBody], none⟩
              else
                ⟨apiError "DOMAIN_NOT_ALLOWED"
                    "URL-en ser ikke ut som en gyldig NRK video-lenke." 400
                    none (some e.reqId)
                    (some "Bruk en lenke til en spesifikk video eller episode, for eksempel tv.nrk.no/serie/.../episode-id.")
                    none, [.parseBody], none⟩
            | none =>
              ⟨apiError "DOMAIN_NOT_ALLOWED"
                  "URL-en ser ikke ut som en gyldig NRK video-lenke." 400
                  none (some e.reqId)
                  (some "Bruk en lenke til en spesifikk video eller episode, for eksempel tv.nrk.no/serie/.../episode-id.")
                  none, [.parseBody], none⟩

/-! ## Concrete environments used by witnesses and counterexamples -/

/-- A body URL with a disallowed hostname that embeds a second, allowed URL;
it contains `nrk.no` twice, so the cleaning step rewrites it. -/
def urlCE : String := "https://evil.com/a-nrk.no/https://tv.nrk.no/x"

/-- WHATWG parse results for the strings the counterexample touches:
the full body URL parses with hostname `evil.com` (the second scheme is
part of the path), and the cleaned URL parses with hostname `tv.nrk.no`. -/
def parseCE : String → Option URLParts := fun s =>
  if s = "https://tv.nrk.no/x" then
    some ⟨"https:", "tv.nrk.no", "/x", "", ""⟩
  else if s = urlCE then
    some ⟨"https:", "evil.com", "/a-nrk.no/https://tv.nrk.no/x", "", ""⟩
  else none

/-- Counterexample environment for the allow-list claim: a request that
passes the rate limiter, carries `urlCE`, and whose direct stream
succeeds. -/
def envC1CE : Env :=
  ⟨.ok true, .value (.strVal urlCE) none, parseCE, defaultAllowDomains,
    "r2", id, [], .firstData, .exited (some 0) "" []⟩

/-- Parse results for a plainly disallowed URL. -/
def parseEvil : String → Option URLParts := fun s =>
  if s = "https://evil.example/x" then
    some ⟨"https:", "evil.example", "/x", "", ""⟩
  else none

/-- Witness environment: allowed by the rate limiter, disallowed host, no
`nrk.no` duplication so the cleaning step is the identity. -/
def envC1W : Env :=
  ⟨.ok true, .value (.strVal "https://evil.example/x") none, parseEvil,
    defaultAllowDomains, "r1", id, [], .firstData, .exited (some 0) "" []⟩

/-- Parse result for a valid episode URL. -/
def parseGood : String → Option URLParts := fun s =>
  if s = "https://tv.nrk.no/serie/abc/xy" then
    some ⟨"https:", "tv.nrk.no", "/serie/abc/xy", "", ""⟩
  else none

/-- A valid-request environment whose direct stream succeeds. -/
def envOkDirect : Env :=
  ⟨.ok true, .value (.strVal "https://tv.nrk.no/serie/abc/xy") none,
    parseGood, defaultAllowDomains, "r3", id, [], .firstData,
    .exited (some 0) "" []⟩

/-- A valid-request environment whose direct stream times out and whose
fallback exits nonzero with two temp files on disk. -/
def envTimeoutFb : Env :=
  ⟨.ok true, .value (.strVal "https://tv.nrk.no/serie/abc/xy") none,
    parseGood, defaultAllowDomains, "r4", id, [],
    .startTimeout "some stderr" true,
    .exited (some 1) "ERROR: boom" ["r4.mp4", "r4.mp4.part", "other.mp4"]⟩

/-- A rate-limited environment. -/
def envRateLimited : Env :=
  ⟨.ok false, .value (.strVal "https://tv.nrk.no/serie/abc/xy") none,
    parseGood, defaultAllowDomains, "r5", id, [], .firstData,
    .exited (some 0) "" []⟩

example : (POST envC1CE).resp = .stream mp4Suffix false := by decide
example : spawnsIn (POST envC1CE).trace =
    [.spawnTitle "https://tv.nrk.no/x", .spawnStream "https://tv.nrk.no/x"] := by decide
example : (POST envC1W).resp =
    apiError "DOMAIN_NOT_ALLOWED"
      "URL-en ser ikke ut som en gyldig NRK video-lenke." 400 none (some "r1")
      (some "Bruk en lenke til en spesifikk video eller episode, for eksempel tv.nrk.no/serie/.../episode-id.")
      none := by decide
example : spawnsIn (POST envC1W).trace = [] := by decide
example : (POST envOkDirect).resp = .stream mp4Suffix false := by decide
example : (POST envTimeoutFb).resp =
    apiError "YTDLP_FAILED" "Nedlasting feilet." 500 (some "ERROR: boom")
      (some "r4") none none := by decide
example : (POST envTimeoutFb).tmpAfter = some ["other.mp4"] := by decide
example : Act.kill "SIGTERM" ∈ (POST envTimeoutFb).trace := by decide
example : (POST envRateLimited).trace = [] := by decide

/-- The error codes of the invalid-input (400) class of the handler. -/
def invalidInputCodes : List String :=
  ["INVALID_REQUEST", "INVALID_URL", "NOT_VIDEO_PAGE", "SERIES_PAGE",
   "DOMAIN_NOT_ALLOWED"]

/-! ## Helper lemmas -/

theorem mem_of_mem_jsTrimUnits {c : Nat} {l : List Nat}
    (h : c ∈ jsTrimUnits l) : c ∈ l := by
  unfold jsTrimUnits at h
  rw [List.mem_reverse] at h
  have h1 := (List.dropWhile_sublist isJsWsUnit).subset h
  rw [List.mem_reverse] at h1
  exact (List.dropWhile_sublist isJsWsUnit).subset h1

theorem mem_collapseWsAux {c : Nat} :
    ∀ (b : Bool) (l : List Nat), c ∈ collapseWsAux b l → c = 0x20 ∨ c ∈ l := by
  intro b l
  induction l generalizing b with
  | nil => simp [collapseWsAux]
  | cons x xs ih =>
    intro h
    simp only [collapseWsAux] at h
    by_cases hw : isJsWsUnit x = true
    · rw [if_pos hw] at h
      by_cases hb : b = true
      · subst hb
        rw [if_pos rfl] at h
        rcases ih true h with h' | h'
        · exact Or.inl h'
        · exact Or.inr (List.mem_cons_of_mem _ h')
      · rw [Bool.not_eq_true] at hb
        subst hb
        rw [if_neg (by simp)] at h
        rcases List.mem_cons.mp h with h' | h'
        · exact Or.inl h'
        · rcases ih true h' with h'' | h''
          · exact Or.inl h''
          · exact Or.inr (List.mem_cons_of_mem _ h'')
    · rw [if_neg hw] at h
      rcases List.mem_cons.mp h with h' | h'
      · exact Or.inr (h' ▸ List.mem_cons_self x xs)
      · rcases ih false h' with h'' | h''
        · exact Or.inl h''
        · exact Or.inr (List.mem_cons_of_mem _ h'')

theorem cleanupTempFiles_clean (pfx : String) (dir : List String) :
    ∀ f ∈ cleanupTempFiles pfx dir, jsStartsWith f (pfx ++ ".") = false := by
  intro f hf
  unfold cleanupTempFiles at hf
  have := (List.mem_filter.mp hf).2
  simpa using this

/-! ## C7: abort propagation in both streaming strategies -/

/-- C7: in both streaming strategies (grace 3000 ms direct, 5000 ms
fallback), once the abort signal fires the handler first sends SIGTERM,
and when the SIGTERM delivery did not mark the child as killed it sends
SIGKILL after the grace delay; a SIGTERM is issued on every abort. -/
theorem C7_abort_kill_escalation (grace : Nat) (delivered : Bool)
    (hg : grace = 3000 ∨ grace = 5000) :
    (onAbortKills grace delivered).head? = some (Act.kill "SIGTERM", 0) ∧
    (delivered = false →
      (Act.kill "SIGKILL", grace) ∈ onAbortKills grace delivered) ∧
    (Act.kill "SIGTERM", 0) ∈ onAbortKills grace delivered := by
  rcases hg with h | h <;> subst h <;> cases delivered <;>
    simp [onAbortKills]

/-- Witness for C7 at the direct strategy's grace delay with an
undelivered SIGTERM. -/
theorem C7_witness :
    (onAbortKills 3000 false).head? = some (Act.kill "SIGTERM", 0) ∧
    (false = false →
      (Act.kill "SIGKILL", 3000) ∈ onAbortKills 3000 false) ∧
    (Act.kill "SIGTERM", 0) ∈ onAbortKills 3000 false :=
  C7_abort_kill_escalation 3000 false (Or.inl rfl)

/-! ## C5: rate limiting precedes body parsing and any spawn -/

/-- C5: a request denied by the rate limiter receives the 429
`RATE_LIMITED` response with `retryAfterMs`, and the handler neither
attempts to parse the body nor spawns any subprocess. -/
theorem C5_rate_limit_first (e : Env) (h : rlAllowedOf e.rl = false) :
    (POST e).resp =
      apiError "RATE_LIMITED" "For mange forespørsler. Prøv igjen senere." 429
        none (some e.reqId) none (some 60000) ∧
    Act.parseBody ∉ (POST e).trace ∧
    spawnsIn (POST e).trace = [] := by
  simp [POST, h, spawnsIn]

/-- Witness for C5 at a concrete rate-limited environment. -/
theorem C5_witness :
    rlAllowedOf envRateLimited.rl = false ∧
    ((POST envRateLimited).resp =
      apiError "RATE_LIMITED" "For mange forespørsler. Prøv igjen senere." 429
        none (some "r5") none (some 60000) ∧
    Act.parseBody ∉ (POST envRateLimited).trace ∧
    spawnsIn (POST envRateLimited).trace = []) :=
  ⟨by decide, C5_rate_limit_first envRateLimited (by decide)⟩

/-! ## C9: sanitizeFilename output safety -/

/-- C9: for every NFKC normalizer and every input, the sanitized filename
has at most 120 code units and contains no path separator (`/`, `\`), none
of `: * ? " < > |`, and no ASCII control character. -/
theorem C9_sanitize_filename_safe (nfkc : List Nat → List Nat)
    (name : List Nat) :
    (sanitizeFilename nfkc name).length ≤ 120 ∧
    ∀ c ∈ sanitizeFilename nfkc name,
      c ≠ 0x2F ∧ c ≠ 0x5C ∧ c ∉ badFilenameUnits ∧ isControlUnit c = false := by
  constructor
  · unfold sanitizeFilename
    exact List.length_take_le _ _
  · intro c hc
    unfold sanitizeFilename at hc
    have hc1 := (List.take_sublist 120 _).subset hc
    have hc2 := mem_of_mem_jsTrimUnits hc1
    rw [List.mem_map] at hc2
    obtain ⟨y, hy, hyc⟩ := hc2
    have hy2 := List.mem_filter.mp hy
    have hynotctl : isControlUnit y = false := by simpa using hy2.2
    have hynotbad : y ∉ badFilenameUnits := by
      rcases mem_collapseWsAux false _ hy2.1 with h20 | hmem
      · subst h20; decide
      · rw [List.mem_map] at hmem
        obtain ⟨z, _, hz⟩ := hmem
        by_cases hbz : badFilenameUnits.contains z = true
        · rw [if_pos hbz] at hz; subst hz; decide
        · rw [if_neg hbz] at hz
          subst hz
          intro hmem'
          exact hbz (List.elem_iff.mpr hmem')
    subst hyc
    by_cases hk : keepUnit y = true
    · rw [if_pos hk]
      refine ⟨?_, ?_, hynotbad, hynotctl⟩
      · intro h; exact hynotbad (h ▸ (by decide))
      · intro h; exact hynotbad (h ▸ (by decide))
    · rw [if_neg hk]
      refine ⟨by decide, by decide, by decide, by decide⟩

/-! ## C8: nonzero exit of the temp-file fallback -/

/-- C8: when the fallback yt-dlp exits with a nonzero code, the handler
responds 500 `YTDLP_FAILED` and every temp-directory entry named with the
request's output prefix (`requestId + "."`) is deleted. -/
theorem C8_fallback_failure_cleanup (e : Env) (url0 : String)
    (fmt : Option String) (c : Int) (stderr : String) (dir : List String)
    (hrl : rlAllowedOf e.rl = true)
    (hb : e.body = .value (.strVal url0) fmt)
    (hne : cleanUrl url0 ≠ "")
    (hv : isAllowedUrl e.parseURL (cleanUrl url0)
      (e.allowDomains.map normalizeHost) = true)
    (hd : (directResult e.direct).isSome = true)
    (hf : e.fallback = .exited (some c) stderr dir)
    (hc : c ≠ 0) :
    (POST e).resp =
      apiError "YTDLP_FAILED" "Nedlasting feilet." 500 (some stderr)
        (some e.reqId) none none ∧
    (POST e).tmpAfter = some (cleanupTempFiles e.reqId dir) ∧
    ∀ f ∈ cleanupTempFiles e.reqId dir,
      jsStartsWith f (e.reqId ++ ".") = false := by
  obtain ⟨err, herr⟩ := Option.isSome_iff_exists.mp hd
  refine ⟨?_, ?_, cleanupTempFiles_clean _ _⟩ <;>
    simp [POST, hrl, hb, hne, hv, herr, hf, streamFromTempFile, hc, apiError]

/-- Witness for C8 at a concrete environment whose fallback fails with two
files of the request on disk. -/
theorem C8_witness :
    rlAllowedOf envTimeoutFb.rl = true ∧
    (POST envTimeoutFb).resp =
      apiError "YTDLP_FAILED" "Nedlasting feilet." 500 (some "ERROR: boom")
        (some "r4") none none ∧
    (POST envTimeoutFb).tmpAfter =
      some (cleanupTempFiles "r4" ["r4.mp4", "r4.mp4.part", "other.mp4"]) ∧
    jsStartsWith "r4.mp4" ("r4" ++ ".") = true :=
  ⟨by decide,
    (C8_fallback_failure_cleanup envTimeoutFb "https://tv.nrk.no/serie/abc/xy"
      none 1 "ERROR: boom" ["r4.mp4", "r4.mp4.part", "other.mp4"]
      (by decide) (by decide) (by decide) (by decide) (by decide) (by decide)
      (by decide)).1,
    (C8_fallback_failure_cleanup envTimeoutFb "https://tv.nrk.no/serie/abc/xy"
      none 1 "ERROR: boom" ["r4.mp4", "r4.mp4.part", "other.mp4"]
      (by decide) (by decide) (by decide) (by decide) (by decide) (by decide)
      (by decide)).2.1,
    by decide⟩

/-! ## Trace lemmas for the valid-request path -/

theorem directKills_filter (d : DirectOutcome) :
    (directKills d).filter isDownloadSpawn = [] := by
  cases d with
  | startTimeout stderr delivered => cases delivered <;> rfl
  | firstData => rfl
  | exitNonzero c st => rfl
  | spawnError m => rfl

theorem fallbackKills_filter (reqId : String) (sn : List Nat)
    (fb : FallbackOutcome) :
    ((streamFromTempFile reqId sn fb).2.2).filter isDownloadSpawn = [] := by
  cases fb with
  | aborted delivered dir => cases delivered <;> rfl
  | procError m dir => rfl
  | exited code stderr dir =>
    simp only [streamFromTempFile]
    split
    · rfl
    · split <;> rfl

theorem POST_trace_direct_ok (e : Env) (url0 : String) (fmt : Option String)
    (hrl : rlAllowedOf e.rl = true)
    (hb : e.body = .value (.strVal url0) fmt)
    (hne : cleanUrl url0 ≠ "")
    (hv : isAllowedUrl e.parseURL (cleanUrl url0)
      (e.allowDomains.map normalizeHost) = true)
    (herr : directResult e.direct = none) :
    (POST e).trace =
      [.parseBody, .spawnTitle (cleanUrl url0),
        .spawnStream (cleanUrl url0)] ++ directKills e.direct := by
  simp [POST, hrl, hb, hne, hv, herr]

theorem POST_trace_direct_fail (e : Env) (url0 : String) (fmt : Option String)
    (err : DlErr)
    (hrl : rlAllowedOf e.rl = true)
    (hb : e.body = .value (.strVal url0) fmt)
    (hne : cleanUrl url0 ≠ "")
    (hv : isAllowedUrl e.parseURL (cleanUrl url0)
      (e.allowDomains.map normalizeHost) = true)
    (herr : directResult e.direct = some err) :
    (POST e).trace =
      [.parseBody, .spawnTitle (cleanUrl url0),
        .spawnStream (cleanUrl url0)] ++ directKills e.direct ++
        [.spawnFile (cleanUrl url0)] ++
        (streamFromTempFile e.reqId
          (sanitizeFilename e.nfkc e.title ++ mp4Suffix) e.fallback).2.2 := by
  rcases h1 : (streamFromTempFile e.reqId
      (sanitizeFilename e.nfkc e.title ++ mp4Suffix) e.fallback).1 with msg | resp <;>
    simp [POST, hrl, hb, hne, hv, herr, h1]

/-! ## C3: the two-tier streaming strategy -/

/-- C3: on the valid-request path, the download spawns of the trace are the
direct-stream spawn first, followed by the temp-file spawn exactly when the
direct attempt rejected with an error; a successful direct attempt never
starts the temp-file download. -/
theorem C3_two_tier_order (e : Env) (url0 : String) (fmt : Option String)
    (hrl : rlAllowedOf e.rl = true)
    (hb : e.body = .value (.strVal url0) fmt)
    (hne : cleanUrl url0 ≠ "")
    (hv : isAllowedUrl e.parseURL (cleanUrl url0)
      (e.allowDomains.map normalizeHost) = true) :
    downloadSpawns (POST e).trace =
      Act.spawnStream (cleanUrl url0) ::
        (if (directResult e.direct).isSome = true then
          [Act.spawnFile (cleanUrl url0)] else []) := by
  have hk1 := directKills_filter e.direct
  cases herr : directResult e.direct with
  | none =>
    rw [downloadSpawns, POST_trace_direct_ok e url0 fmt hrl hb hne hv herr]
    simp [List.filter_append, hk1, isDownloadSpawn]
  | some err =>
    have hk2 := fallbackKills_filter e.reqId
      (sanitizeFilename e.nfkc e.title ++ mp4Suffix) e.fallback
    rw [downloadSpawns, POST_trace_direct_fail e url0 fmt err hrl hb hne hv herr]
    simp [List.filter_append, hk1, hk2, isDownloadSpawn]

/-- Witness for C3 at an environment whose direct stream succeeds. -/
theorem C3_witness :
    rlAllowedOf envOkDirect.rl = true ∧
    cleanUrl "https://tv.nrk.no/serie/abc/xy" ≠ "" ∧
    downloadSpawns (POST envOkDirect).trace =
      Act.spawnStream (cleanUrl "https://tv.nrk.no/serie/abc/xy") ::
        (if (directResult envOkDirect.direct).isSome = true then
          [Act.spawnFile (cleanUrl "https://tv.nrk.no/serie/abc/xy")] else []) :=
  ⟨by decide, by decide,
    C3_two_tier_order envOkDirect "https://tv.nrk.no/serie/abc/xy" none
      (by decide) (by decide) (by decide) (by decide)⟩

/-! ## C6: the 30-second start timeout of the direct attempt -/

theorem streamFromTempFile_json (reqId : String) (sn : List Nat)
    (fb : FallbackOutcome) (b : ErrBody) (s : Nat)
    (h : (streamFromTempFile reqId sn fb).1 = .ok (.json b s)) :
    s = 500 ∧ b.code = "YTDLP_FAILED" ∧ b.requestId = some reqId ∧
      b.message ≠ "" := by
  cases fb with
  | aborted delivered dir => simp [streamFromTempFile] at h
  | procError m dir =>
    simp [streamFromTempFile, apiError] at h
    obtain ⟨hb, hs⟩ := h
    subst hb; subst hs
    refine ⟨rfl, rfl, rfl, ?_⟩
    show ("Nedlastingsprosessen feilet." : String) ≠ ""
    decide
  | exited code stderr dir =>
    simp only [streamFromTempFile] at h
    split at h
    · simp [apiError] at h
      obtain ⟨hb, hs⟩ := h
      subst hb; subst hs
      refine ⟨rfl, rfl, rfl, ?_⟩
      show ("Nedlasting feilet." : String) ≠ ""
      decide
    · split at h
      · simp [apiError] at h
        obtain ⟨hb, hs⟩ := h
        subst hb; subst hs
        refine ⟨rfl, rfl, rfl, ?_⟩
        show ("Nedlasting feilet - fant ingen utdatafil." : String) ≠ ""
        decide
      · simp at h

/-- C6: when the direct attempt times out waiting for the first stdout data
(30 s, route.ts line 339), the attempt rejects with code
`YTDLP_START_TIMEOUT`, the child receives SIGTERM, the temp-file fallback is
spawned, and any error response the handler then returns carries the
fallback's `YTDLP_FAILED` code, never the timeout code. -/
theorem C6_start_timeout (e : Env) (url0 : String) (fmt : Option String)
    (stderr : String) (delivered : Bool)
    (hrl : rlAllowedOf e.rl = true)
    (hb : e.body = .value (.strVal url0) fmt)
    (hne : cleanUrl url0 ≠ "")
    (hv : isAllowedUrl e.parseURL (cleanUrl url0)
      (e.allowDomains.map normalizeHost) = true)
    (hd : e.direct = .startTimeout stderr delivered) :
    directResult e.direct =
      some ⟨"YTDLP_START_TIMEOUT",
        "Download timeout: yt-dlp did not start sending data", stderr⟩ ∧
    Act.kill "SIGTERM" ∈ (POST e).trace ∧
    Act.spawnFile (cleanUrl url0) ∈ (POST e).trace ∧
    ∀ b s, (POST e).resp = .json b s → b.code = "YTDLP_FAILED" := by
  have herr : directResult e.direct =
      some ⟨"YTDLP_START_TIMEOUT",
        "Download timeout: yt-dlp did not start sending data", stderr⟩ := by
    rw [hd]; rfl
  have htr := POST_trace_direct_fail e url0 fmt _ hrl hb hne hv herr
  refine ⟨herr, ?_, ?_, ?_⟩
  · rw [htr, hd]
    cases delivered <;> simp [directKills, onAbortKills]
  · rw [htr]
    simp
  · intro b s hresp
    rcases h1 : (streamFromTempFile e.reqId
        (sanitizeFilename e.nfkc e.title ++ mp4Suffix) e.fallback).1
      with msg | resp'
    · simp [POST, hrl, hb, hne, hv, herr, h1, apiError] at hresp
      obtain ⟨hbe, _⟩ := hresp
      subst hbe
      rfl
    · have hpr : (POST e).resp = resp' := by
        simp [POST, hrl, hb, hne, hv, herr, h1]
      rw [hpr] at hresp
      subst hresp
      exact (streamFromTempFile_json _ _ _ _ _ h1).2.1

/-- Witness for C6 at a concrete timed-out environment. -/
theorem C6_witness :
    envTimeoutFb.direct = .startTimeout "some stderr" true ∧
    directResult envTimeoutFb.direct =
      some ⟨"YTDLP_START_TIMEOUT",
        "Download timeout: yt-dlp did not start sending data", "some stderr"⟩ ∧
    Act.kill "SIGTERM" ∈ (POST envTimeoutFb).trace ∧
    Act.spawnFile (cleanUrl "https://tv.nrk.no/serie/abc/xy") ∈
      (POST envTimeoutFb).trace :=
  ⟨by decide,
    (C6_start_timeout envTimeoutFb "https://tv.nrk.no/serie/abc/xy" none
      "some stderr" true (by decide) (by decide) (by decide) (by decide)
      (by decide)).1,
    (C6_start_timeout envTimeoutFb "https://tv.nrk.no/serie/abc/xy" none
      "some stderr" true (by decide) (by decide) (by decide) (by decide)
      (by decide)).2.1,
    (C6_start_timeout envTimeoutFb "https://tv.nrk.no/serie/abc/xy" none
      "some stderr" true (by decide) (by decide) (by decide) (by decide)
      (by decide)).2.2.1⟩

/-! ## C1: the host allow-list gate -/

theorem isAllowedUrl_eq_false_of_not_mem (parse : String → Option URLParts)
    (urlStr : String) (allowList : List String) (u : URLParts)
    (hp : parse urlStr = some u)
    (hh : normalizeHost u.hostname ∉ allowList) :
    isAllowedUrl parse urlStr allowList = false := by
  have hcont : allowList.contains (normalizeHost u.hostname) = false := by
    simp only [List.contains, List.elem_eq_mem]
    simpa using hh
  simp only [isAllowedUrl, hp]
  split
  · rfl
  · split
    · rfl
    · simp [hcont]
      intro hmem
      exact absurd hmem hh

/-- C1 (amended): for a request that passes the rate limiter and whose body
URL string, after the duplicated-URL cleaning step, parses to a hostname
whose normalization is not in the allow-list, the handler returns a 400
JSON error and spawns no yt-dlp subprocess. -/
theorem C1_allowlist_blocks_after_clean (e : Env) (url0 : String)
    (fmt : Option String) (u : URLParts)
    (hrl : rlAllowedOf e.rl = true)
    (hb : e.body = .value (.strVal url0) fmt)
    (hp : e.parseURL (cleanUrl url0) = some u)
    (hh : normalizeHost u.hostname ∉ e.allowDomains.map normalizeHost) :
    (∃ b, (POST e).resp = .json b 400) ∧ spawnsIn (POST e).trace = [] := by
  have hv := isAllowedUrl_eq_false_of_not_mem e.parseURL (cleanUrl url0)
    (e.allowDomains.map normalizeHost) u hp hh
  by_cases hz : cleanUrl url0 = ""
  · constructor
    · exact ⟨⟨"INVALID_URL", "Mangler eller ugyldig URL.", none, some e.reqId,
        none, none⟩, by simp [POST, hrl, hb, hz, apiError]⟩
    · simp [POST, hrl, hb, hz, spawnsIn, isSpawnAct]
  · constructor
    · simp only [POST]
      simp [hrl, hb, hz, hv, hp, apiError]
      split
      · exact ⟨_, rfl⟩
      · split
        · exact ⟨_, rfl⟩
        · exact ⟨_, rfl⟩
    · simp only [POST]
      simp [hrl, hb, hz, hv, hp, spawnsIn, isSpawnAct]
      split
      · simp [isSpawnAct]
      · split <;> simp [isSpawnAct]

/-- Witness for C1 at a request carrying a plainly disallowed URL (no
`nrk.no` duplication, so the cleaning step leaves it unchanged). -/
theorem C1_witness :
    rlAllowedOf envC1W.rl = true ∧
    envC1W.parseURL (cleanUrl "https://evil.example/x") =
      some ⟨"https:", "evil.example", "/x", "", ""⟩ ∧
    normalizeHost "evil.example" ∉ defaultAllowDomains.map normalizeHost ∧
    ((∃ b, (POST envC1W).resp = .json b 400) ∧
      spawnsIn (POST envC1W).trace = []) :=
  ⟨by decide, by decide, by decide,
    C1_allowlist_blocks_after_clean envC1W "https://evil.example/x" none
      ⟨"https:", "evil.example", "/x", "", ""⟩
      (by decide) (by decide) (by decide) (by decide)⟩

/-- Counterexample to C1 as stated: the body URL `urlCE` parses with
hostname `evil.com`, which is not in the allow-list, yet the handler does
not return 400 — the duplicated-URL cleaning rewrites the URL to the
embedded `https://tv.nrk.no/x`, which passes validation, so yt-dlp is
spawned and the direct streaming response is returned. -/
theorem C1_counterexample :
    parseCE urlCE =
      some ⟨"https:", "evil.com", "/a-nrk.no/https://tv.nrk.no/x", "", ""⟩ ∧
    normalizeHost "evil.com" ∉ defaultAllowDomains.map normalizeHost ∧
    rlAllowedOf envC1CE.rl = true ∧
    envC1CE.body = .value (.strVal urlCE) none ∧
    cleanUrl urlCE = "https://tv.nrk.no/x" ∧
    (POST envC1CE).resp = .stream mp4Suffix false ∧
    Act.spawnStream "https://tv.nrk.no/x" ∈ (POST envC1CE).trace := by
  decide

/-! ## C4: structured error mapping -/

/-- C4: every JSON error response of the handler carries the generated
request id and a nonempty message, and its status matches the class of its
code: 400 with an invalid-input code, 429 with `RATE_LIMITED`, or 500 with
`YTDLP_FAILED`. -/
theorem C4_structured_errors (e : Env) (b : ErrBody) (s : Nat)
    (h : (POST e).resp = .json b s) :
    b.requestId = some e.reqId ∧ b.message ≠ "" ∧
    ((s = 400 ∧ b.code ∈ invalidInputCodes) ∨
     (s = 429 ∧ b.code = "RATE_LIMITED") ∨
     (s = 500 ∧ b.code = "YTDLP_FAILED")) := by
  by_cases hrl : rlAllowedOf e.rl = false
  · simp [POST, hrl, apiError] at h
    obtain ⟨hb, hs⟩ := h
    subst hb; subst hs
    refine ⟨rfl, ?_, Or.inr (Or.inl ⟨rfl, rfl⟩)⟩
    show ("For mange forespørsler. Prøv igjen senere." : String) ≠ ""
    decide
  · cases hbody : e.body with
    | throws =>
      simp [POST, hrl, hbody, apiError] at h
      obtain ⟨hb, hs⟩ := h
      subst hb; subst hs
      refine ⟨rfl, ?_, Or.inl ⟨rfl, ?_⟩⟩
      · show ("Ugyldig forespørsel." : String) ≠ ""
        decide
      · show ("INVALID_REQUEST" : String) ∈ invalidInputCodes
        decide
    | value uf fmt =>
      cases uf with
      | nonStrThrows =>
        simp [POST, hrl, hbody, apiError] at h
        obtain ⟨hb, hs⟩ := h
        subst hb; subst hs
        refine ⟨rfl, ?_, Or.inl ⟨rfl, ?_⟩⟩
        · show ("Ugyldig forespørsel." : String) ≠ ""
          decide
        · show ("INVALID_REQUEST" : String) ∈ invalidInputCodes
          decide
      | nonStrOther =>
        simp [POST, hrl, hbody, apiError] at h
        obtain ⟨hb, hs⟩ := h
        subst hb; subst hs
        refine ⟨rfl, ?_, Or.inl ⟨rfl, ?_⟩⟩
        · show ("Mangler eller ugyldig URL." : String) ≠ ""
          decide
        · show ("INVALID_URL" : String) ∈ invalidInputCodes
          decide
      | strVal url0 =>
        by_cases hz : cleanUrl url0 = ""
        · simp [POST, hrl, hbody, hz, apiError] at h
          obtain ⟨hb, hs⟩ := h
          subst hb; subst hs
          refine ⟨rfl, ?_, Or.inl ⟨rfl, ?_⟩⟩
          · show ("Mangler eller ugyldig URL." : String) ≠ ""
            decide
          · show ("INVALID_URL" : String) ∈ invalidInputCodes
            decide
        · by_cases hv : isAllowedUrl e.parseURL (cleanUrl url0)
              (e.allowDomains.map normalizeHost) = true
          · cases herr : directResult e.direct with
            | none => simp [POST, hrl, hbody, hz, hv, herr] at h
            | some err =>
              rcases h1 : (streamFromTempFile e.reqId
                  (sanitizeFilename e.nfkc e.title ++ mp4Suffix)
                  e.fallback).1 with msg | resp2
              · simp [POST, hrl, hbody, hz, hv, herr, h1, apiError] at h
                obtain ⟨hb, hs⟩ := h
                subst hb; subst hs
                refine ⟨rfl, ?_, Or.inr (Or.inr ⟨rfl, rfl⟩)⟩
                show ("Nedlasting feilet." : String) ≠ ""
                decide
              · have hpr : (POST e).resp = resp2 := by
                  simp [POST, hrl, hbody, hz, hv, herr, h1]
                rw [hpr] at h
                subst h
                obtain ⟨hs, hc, hr, hm⟩ :=
                  streamFromTempFile_json _ _ _ _ _ h1
                exact ⟨hr, hm, Or.inr (Or.inr ⟨hs, hc⟩)⟩
          · rw [Bool.not_eq_true] at hv
            cases hp2 : e.parseURL (cleanUrl url0) with
            | none =>
              simp [POST, hrl, hbody, hz, hv, hp2, apiError] at h
              obtain ⟨hb, hs⟩ := h
              subst hb; subst hs
              refine ⟨rfl, ?_, Or.inl ⟨rfl, ?_⟩⟩
              · show ("URL-en ser ikke ut som en gyldig NRK video-lenke." :
                  String) ≠ ""
                decide
              · show ("DOMAIN_NOT_ALLOWED" : String) ∈ invalidInputCodes
                decide
            | some u2 =>
              by_cases h1 : (u2.hostname = "nrk.no" ∨
                  u2.hostname = "www.nrk.no") ∧
                  (u2.pathname = "/" ∨ u2.pathname = "")
              · simp [POST, hrl, hbody, hz, hv, hp2, h1, apiError] at h
                obtain ⟨hb, hs⟩ := h
                subst hb; subst hs
                refine ⟨rfl, ?_, Or.inl ⟨rfl, ?_⟩⟩
                · show ("Forsiden (nrk.no) er ikke en video. Vennligst lim inn en direkte lenke til en video, serie eller program." :
                    String) ≠ ""
                  decide
                · show ("NOT_VIDEO_PAGE" : String) ∈ invalidInputCodes
                  decide
              · by_cases h2 : u2.hostname = "tv.nrk.no" ∧
                    jsStartsWith (jsToLower u2.pathname) "/serie/" = true ∧
                    ((jsSplit ['/'] u2.pathname.data).filter
                      (fun p => decide (0 < p.length))).length = 2
                · simp [POST, hrl, hbody, hz, hv, hp2, h1, h2, apiError] at h
                  obtain ⟨hb, hs⟩ := h
                  subst hb; subst hs
                  refine ⟨rfl, ?_, Or.inl ⟨rfl, ?_⟩⟩
                  · show ("Dette er en serie-side, ikke en spesifikk episode." :
                      String) ≠ ""
                    decide
                  · show ("SERIES_PAGE" : String) ∈ invalidInputCodes
                    decide
                · simp [POST, hrl, hbody, hz, hv, hp2, h1, h2, apiError] at h
                  obtain ⟨hb, hs⟩ := h
                  subst hb; subst hs
                  refine ⟨rfl, ?_, Or.inl ⟨rfl, ?_⟩⟩
                  · show ("URL-en ser ikke ut som en gyldig NRK video-lenke." :
                      String) ≠ ""
                    decide
                  · show ("DOMAIN_NOT_ALLOWED" : String) ∈ invalidInputCodes
                    decide

/-- Witness for C4 at a concrete rate-limited request. -/
theorem C4_witness :
    (POST envRateLimited).resp =
      .json ⟨"RATE_LIMITED", "For mange forespørsler. Prøv igjen senere.",
        none, some "r5", none, some 60000⟩ 429 ∧
    ((⟨"RATE_LIMITED", "For mange forespørsler. Prøv igjen senere.",
        none, some "r5", none, some 60000⟩ : ErrBody).requestId =
          some envRateLimited.reqId ∧
      (⟨"RATE_LIMITED", "For mange forespørsler. Prøv igjen senere.",
        none, some "r5", none, some 60000⟩ : ErrBody).message ≠ "" ∧
      ((429 = 400 ∧ (⟨"RATE_LIMITED",
          "For mange forespørsler. Prøv igjen senere.",
          none, some "r5", none, some 60000⟩ : ErrBody).code ∈
            invalidInputCodes) ∨
       (429 = 429 ∧ (⟨"RATE_LIMITED",
          "For mange forespørsler. Prøv igjen senere.",
          none, some "r5", none, some 60000⟩ : ErrBody).code =
            "RATE_LIMITED") ∨
       (429 = 500 ∧ (⟨"RATE_LIMITED",
          "For mange forespørsler. Prøv igjen senere.",
          none, some "r5", none, some 60000⟩ : ErrBody).code =
            "YTDLP_FAILED"))) :=
  ⟨by decide,
    C4_structured_errors envRateLimited
      ⟨"RATE_LIMITED", "For mange forespørsler. Prøv igjen senere.",
        none, some "r5", none, some 60000⟩ 429 (by decide)⟩

/-! ## C2: the rate limiter -/

theorem redisStep_stateAfter :
    ∀ hist : List Int, hist.Sorted (· < ·) → (∀ t ∈ hist, 0 ≤ t) →
      ∀ now : Int, (∀ t ∈ hist, t < now) →
      redisStep (redisStateAfter hist) now =
        now :: (hist.filter (fun t => decide (now - 60000 < t))).reverse := by
  intro hist
  induction hist using List.reverseRecOn with
  | nil =>
    intro _ _ now _
    have h2 : ¬(now ≤ now - 60000) := by omega
    simp [redisStateAfter, redisStep, h2]
  | append_singleton hs L ih =>
    intro hsort hpos now hlt
    have hpw : (hs ++ [L]).Pairwise (· < ·) := hsort
    have hsplit := List.pairwise_append.mp hpw
    have hsortHs : hs.Sorted (· < ·) := hsplit.1
    have hcross : ∀ t ∈ hs, t < L := fun t ht => hsplit.2.2 t ht L (by simp)
    have hposHs : ∀ t ∈ hs, 0 ≤ t := fun t ht => hpos t (by simp [ht])
    have hposL : (0 : Int) ≤ L := hpos L (by simp)
    have hLlt : L < now := hlt L (by simp)
    have hstate : redisStateAfter (hs ++ [L]) =
        redisStep (redisStateAfter hs) L := by
      simp [redisStateAfter, List.foldl_append]
    rw [hstate, ih hsortHs hposHs L hcross]
    have hqeq : ∀ t : Int, 0 ≤ t →
        (!(decide (0 ≤ t) && decide (t ≤ now - 60000))) =
          decide (now - 60000 < t) := by
      intro t ht
      by_cases hc : now - 60000 < t
      · have h2 : ¬(t ≤ now - 60000) := by omega
        simp [ht, h2, hc]
      · have h2 : t ≤ now - 60000 := by omega
        simp [ht, h2, hc]
    have hnm : now ∉ L :: (hs.filter (fun t => decide (L - 60000 < t))).reverse := by
      intro hmem
      rcases List.mem_cons.mp hmem with h | h
      · omega
      · rw [List.mem_reverse] at h
        have h3 : now ∈ hs := List.mem_of_mem_filter h
        have h4 := hlt now (List.mem_append.mpr (Or.inl h3))
        omega
    have hcont : (L :: (hs.filter
        (fun t => decide (L - 60000 < t))).reverse).contains now = false := by
      simp only [List.contains, List.elem_eq_mem]
      simpa using hnm
    have hposPrev : ∀ t ∈ L :: (hs.filter
        (fun t => decide (L - 60000 < t))).reverse, (0 : Int) ≤ t := by
      intro t ht
      rcases List.mem_cons.mp ht with h | h
      · subst h; exact hposL
      · rw [List.mem_reverse] at h
        exact hposHs t (List.mem_of_mem_filter h)
    have hfq : (L :: (hs.filter (fun t => decide (L - 60000 < t))).reverse).filter
          (fun t => !(decide (0 ≤ t) && decide (t ≤ now - 60000))) =
        (L :: (hs.filter (fun t => decide (L - 60000 < t))).reverse).filter
          (fun t => decide (now - 60000 < t)) :=
      List.filter_congr (fun t ht => hqeq t (hposPrev t ht))
    have hqnow : (!(decide (0 ≤ now) && decide (now ≤ now - 60000))) = true := by
      have h2 : ¬(now ≤ now - 60000) := by omega
      simp [h2]
    have hrw : L :: (hs.filter (fun t => decide (L - 60000 < t))).reverse =
        ((hs.filter (fun t => decide (L - 60000 < t))) ++ [L]).reverse := by
      simp
    rw [redisStep, hcont]
    simp only [Bool.false_eq_true, if_false]
    rw [List.filter_cons]
    rw [if_pos hqnow]
    congr 1
    rw [hfq, hrw, List.filter_reverse]
    congr 1
    rw [List.filter_append, List.filter_append]
    congr 1
    rw [List.filter_filter]
    apply List.filter_congr
    intro t ht
    have ht0 : (0 : Int) ≤ t := hposHs t ht
    have htL : t < L := hcross t ht
    show (decide (now - 60000 < t) && decide (L - 60000 < t)) =
      decide (now - 60000 < t)
    by_cases hc : now - 60000 < t
    · have hcL : L - 60000 < t := by omega
      simp [hc, hcL]
    · simp [hc]

/-- C2 (amended, Redis path): with Redis available, for any strictly
increasing, nonnegative request history and a fresh later request time, the
request is allowed exactly when the number of the client's recorded requests
(allowed and denied alike) in the rolling 60-second window preceding it is
below the configured limit. -/
theorem C2_redis_sliding_window (limit : Nat) (hist : List Int) (now : Int)
    (hsort : hist.Sorted (· < ·)) (hpos : ∀ t ∈ hist, 0 ≤ t)
    (hlt : ∀ t ∈ hist, t < now) :
    rateLimitRedisAllowed limit hist now =
      decide (slidingWindowCount hist now < limit) := by
  rw [rateLimitRedisAllowed, redisStep_stateAfter hist hsort hpos now hlt]
  rw [decide_eq_decide]
  simp only [List.length_cons, List.length_reverse, slidingWindowCount]
  omega

/-- Witness for C2 at a two-request history: with limit 1, the request at
70000 ms has one predecessor (30000 ms) in its rolling window, so it is
denied. -/
theorem C2_witness :
    List.Sorted (fun a b : Int => a < b) [0, 30000] ∧
    rateLimitRedisAllowed 1 [0, 30000] 70000 =
      decide (slidingWindowCount [0, 30000] 70000 < 1) :=
  ⟨by decide,
    C2_redis_sliding_window 1 [0, 30000] 70000 (by decide) (by decide)
      (by decide)⟩

/-- Counterexample to C2 as stated: the in-memory fallback used when Redis
is unavailable is a fixed window anchored at the request that opens it.
With limit 2 and requests at 0, 59000, 60001 and 60002 ms, the fallback
allows all four, although the fourth request has two predecessors (59000
and 60001 ms) inside its rolling 60-second window, so a sliding-window
counter would deny it. -/
theorem C2_counterexample :
    rateLimitMemoryRun 2 none [0, 59000, 60001, 60002] =
      [true, true, true, true] ∧
    slidingWindowCount [0, 59000, 60001] 60002 = 2 ∧
    decide (slidingWindowCount [0, 59000, 60001] 60002 < 2) = false := by
  decide

/-! ## C10: normalizeHost and idempotence -/

theorem charLower_fix_of_lower {c : Char}
    (h : upperLower.find? (fun p => p.1 = c) = none) : charLower c = c := by
  simp [charLower, h]

theorem charLower_idem (c : Char) : charLower (charLower c) = charLower c := by
  cases h : upperLower.find? (fun p => p.1 = c) with
  | none => rw [charLower_fix_of_lower h, charLower_fix_of_lower h]
  | some p =>
    have hmem : p ∈ upperLower := List.mem_of_find?_eq_some h
    have hlow : ∀ q ∈ upperLower, charLower q.2 = q.2 := by decide
    have hc : charLower c = p.2 := by simp [charLower, h]
    rw [hc, hlow p hmem]

theorem charLower_basic (c : Char) (h : isBasicChar c = true) :
    isBasicChar (charLower c) = true := by
  cases hf : upperLower.find? (fun p => p.1 = c) with
  | none => rw [charLower_fix_of_lower hf]; exact h
  | some p =>
    have hmem : p ∈ upperLower := List.mem_of_find?_eq_some hf
    have hbas : ∀ q ∈ upperLower, isBasicChar q.2 = true := by decide
    have hc : charLower c = p.2 := by simp [charLower, hf]
    rw [hc]; exact hbas p hmem

theorem splitDot_ne_nil (l : List Char) : splitDot l ≠ [] := by
  cases l with
  | nil => simp [splitDot]
  | cons c rest =>
    simp only [splitDot]
    cases h : splitDot rest with
    | nil => simp
    | cons a as => by_cases hc : c = '.' <;> simp [hc]

theorem mem_splitDot :
    ∀ (l : List Char) (x : List Char), x ∈ splitDot l → ∀ c ∈ x, c ∈ l := by
  intro l
  induction l with
  | nil =>
    intro x hx c hc
    simp [splitDot] at hx
    subst hx
    simp at hc
  | cons d rest ih =>
    intro x hx c hc
    cases h : splitDot rest with
    | nil => exact absurd h (splitDot_ne_nil rest)
    | cons a as =>
      simp only [splitDot, h] at hx
      by_cases hd : d = '.'
      · rw [if_pos hd] at hx
        rcases List.mem_cons.mp hx with h1 | h1
        · subst h1; simp at hc
        · have : c ∈ rest := ih x (h ▸ h1) c hc
          exact List.mem_cons_of_mem _ this
      · rw [if_neg hd] at hx
        rcases List.mem_cons.mp hx with h1 | h1
        · subst h1
          rcases List.mem_cons.mp hc with h2 | h2
          · subst h2; exact List.mem_cons_self _ _
          · have ha : a ∈ splitDot rest := h ▸ List.mem_cons_self a as
            exact List.mem_cons_of_mem _ (ih a ha c h2)
        · have hx2 : x ∈ splitDot rest := h ▸ List.mem_cons_of_mem a h1
          exact List.mem_cons_of_mem _ (ih x hx2 c hc)

theorem mem_joinDot :
    ∀ (ls : List (List Char)) (c : Char), c ∈ joinDot ls →
      c = '.' ∨ ∃ x ∈ ls, c ∈ x := by
  intro ls
  induction ls with
  | nil => intro c hc; simp [joinDot] at hc
  | cons x xs ih =>
    intro c hc
    cases xs with
    | nil =>
      simp only [joinDot] at hc
      exact Or.inr ⟨x, by simp, hc⟩
    | cons y ys =>
      simp only [joinDot] at hc
      rcases List.mem_append.mp hc with h | h
      · exact Or.inr ⟨x, by simp, h⟩
      · rcases List.mem_cons.mp h with h1 | h1
        · exact Or.inl h1
        · rcases ih c h1 with h2 | ⟨z, hz, hcz⟩
          · exact Or.inl h2
          · exact Or.inr ⟨z, List.mem_cons_of_mem _ hz, hcz⟩

theorem joinDot_splitDot : ∀ l : List Char, joinDot (splitDot l) = l := by
  intro l
  induction l with
  | nil => rfl
  | cons c rest ih =>
    cases h : splitDot rest with
    | nil => exact absurd h (splitDot_ne_nil rest)
    | cons a as =>
      rw [h] at ih
      simp only [splitDot, h]
      by_cases hc : c = '.'
      · rw [if_pos hc]
        cases as with
        | nil => simp only [joinDot] at ih ⊢; rw [ih, hc]; rfl
        | cons z zs => simp only [joinDot] at ih ⊢; rw [ih, hc]; rfl
      · rw [if_neg hc]
        cases as with
        | nil => simp only [joinDot] at ih ⊢; rw [ih]
        | cons z zs =>
          simp only [joinDot] at ih ⊢
          simp only [List.cons_append]
          rw [ih]

theorem punyDigit_mem (n : Nat) : punyDigit n ∈ lowerAlphabet :=
  List.get_mem _ _ _

theorem puny26_mem : ∀ n : Nat, ∀ c ∈ puny26 n, c ∈ lowerAlphabet := by
  intro n
  induction n using Nat.strong_induction_on with
  | _ n ih =>
    intro c hc
    rw [puny26] at hc
    split at hc
    · rw [List.mem_singleton] at hc
      subst hc
      exact punyDigit_mem n
    · rcases List.mem_append.mp hc with h | h
      · exact ih (n / 26) (Nat.div_lt_self (by omega) (by omega)) c h
      · rw [List.mem_singleton] at h
        subst h
        exact punyDigit_mem n

theorem mem_foldr_puny {c : Char} :
    ∀ l : List Char, c ∈ l.foldr (fun d acc => puny26 d.toNat ++ acc) [] →
      ∃ z ∈ l, c ∈ puny26 z.toNat := by
  intro l
  induction l with
  | nil => intro h; simp at h
  | cons x xs ih =>
    intro h
    rw [List.foldr_cons, List.mem_append] at h
    rcases h with h | h
    · exact ⟨x, by simp, h⟩
    · obtain ⟨z, hz, hcz⟩ := ih h
      exact ⟨z, List.mem_cons_of_mem _ hz, hcz⟩

theorem mem_encodeLabel (l : List Char) (c : Char) (hc : c ∈ encodeLabel l) :
    c = 'x' ∨ c = 'n' ∨ c = '-' ∨ (c ∈ l ∧ isBasicChar c = true) ∨
      c ∈ lowerAlphabet := by
  simp only [encodeLabel] at hc
  rcases List.mem_cons.mp hc with h | hc2
  · exact Or.inl h
  rcases List.mem_cons.mp hc2 with h | hc3
  · exact Or.inr (Or.inl h)
  rcases List.mem_cons.mp hc3 with h | hc4
  · exact Or.inr (Or.inr (Or.inl h))
  rcases List.mem_cons.mp hc4 with h | hc5
  · exact Or.inr (Or.inr (Or.inl h))
  rcases List.mem_append.mp hc5 with h | h
  · have := List.mem_filter.mp h
    exact Or.inr (Or.inr (Or.inr (Or.inl ⟨this.1, this.2⟩)))
  · rcases List.mem_cons.mp h with h1 | h1
    · exact Or.inr (Or.inr (Or.inl h1))
    · obtain ⟨z, _, hcz⟩ := mem_foldr_puny _ h1
      exact Or.inr (Or.inr (Or.inr (Or.inr (puny26_mem _ c hcz))))

theorem toASCII_basic (s : String) :
    ∀ c ∈ (toASCII s).data, isBasicChar c = true := by
  intro c hc
  have halpha : ∀ d ∈ lowerAlphabet, isBasicChar d = true := by decide
  rcases mem_joinDot _ c hc with h | ⟨x, hx, hcx⟩
  · subst h; decide
  · rw [List.mem_map] at hx
    obtain ⟨lab, _, hlab⟩ := hx
    by_cases hb : isBasicLabel lab = true
    · rw [if_pos hb] at hlab
      subst hlab
      exact List.all_eq_true.mp hb c hcx
    · rw [if_neg hb] at hlab
      subst hlab
      rcases mem_encodeLabel lab c hcx with h | h | h | ⟨_, h⟩ | h
      · subst h; decide
      · subst h; decide
      · subst h; decide
      · exact h
      · exact halpha c h

theorem toASCII_lowerFixed (s : String)
    (h : ∀ c ∈ s.data, charLower c = c) :
    ∀ c ∈ (toASCII s).data, charLower c = c := by
  intro c hc
  have halpha : ∀ d ∈ lowerAlphabet, charLower d = d := by decide
  rcases mem_joinDot _ c hc with h1 | ⟨x, hx, hcx⟩
  · subst h1; decide
  · rw [List.mem_map] at hx
    obtain ⟨lab, hlabmem, hlab⟩ := hx
    by_cases hb : isBasicLabel lab = true
    · rw [if_pos hb] at hlab
      subst hlab
      exact h c (mem_splitDot _ lab hlabmem c hcx)
    · rw [if_neg hb] at hlab
      subst hlab
      rcases mem_encodeLabel lab c hcx with h1 | h1 | h1 | ⟨h1, _⟩ | h1
      · subst h1; decide
      · subst h1; decide
      · subst h1; decide
      · exact h c (mem_splitDot _ lab hlabmem c h1)
      · exact halpha c h1

theorem toASCII_id_of_basic (s : String)
    (h : ∀ c ∈ s.data, isBasicChar c = true) : toASCII s = s := by
  have hmap : (splitDot s.data).map
      (fun l => if isBasicLabel l then l else encodeLabel l) =
        splitDot s.data := by
    have hcongr : ∀ x ∈ splitDot s.data,
        (if isBasicLabel x then x else encodeLabel x) = id x := by
      intro x hx
      have hb : isBasicLabel x = true :=
        List.all_eq_true.mpr (fun c hc => h c (mem_splitDot _ x hx c hc))
      simp [hb]
    rw [List.map_congr_left hcongr, List.map_id]
  show (⟨joinDot ((splitDot s.data).map _)⟩ : String) = s
  rw [hmap, joinDot_splitDot]

theorem jsToLower_fix (s : String) (h : ∀ c ∈ s.data, charLower c = c) :
    jsToLower s = s := by
  show (⟨s.data.map charLower⟩ : String) = s
  have hcongr : ∀ c ∈ s.data, charLower c = id c := fun c hc => h c hc
  rw [List.map_congr_left hcongr, List.map_id]

theorem jsToLower_lowerFixed (s : String) :
    ∀ c ∈ (jsToLower s).data, charLower c = c := by
  intro c hc
  rw [show (jsToLower s).data = s.data.map charLower from rfl] at hc
  rw [List.mem_map] at hc
  obtain ⟨d, _, hd⟩ := hc
  subst hd
  exact charLower_idem d

/-- C10 (amended): `normalizeHost` is idempotent at every host whose
normalized form has no leading or trailing whitespace and does not itself
start with `www.`.  (Idempotence fails in general: a host starting with
`www.www.` loses one `www.` per application.) -/
theorem C10_normalizeHost_idem_amended (host : String)
    (h1 : jsTrim (normalizeHost host) = normalizeHost host)
    (h2 : jsStartsWith (normalizeHost host) "www." = false) :
    normalizeHost (normalizeHost host) = normalizeHost host := by
  set r := normalizeHost host with hrdef
  have hform : r = toASCII (if jsStartsWith (jsToLower (jsTrim host)) "www."
      then jsSlice4 (jsToLower (jsTrim host))
      else jsToLower (jsTrim host)) := rfl
  have hlow := jsToLower_lowerFixed (jsTrim host)
  have hs0 : ∀ c ∈ (if jsStartsWith (jsToLower (jsTrim host)) "www."
      then jsSlice4 (jsToLower (jsTrim host))
      else jsToLower (jsTrim host)).data, charLower c = c := by
    intro c hc
    split at hc
    · exact hlow c (List.drop_subset _ _ hc)
    · exact hlow c hc
  have hbasic : ∀ c ∈ r.data, isBasicChar c = true := by
    rw [hform]; exact toASCII_basic _
  have hlfix : ∀ c ∈ r.data, charLower c = c := by
    rw [hform]; exact toASCII_lowerFixed _ hs0
  have step1 : jsToLower (jsTrim r) = r := by
    rw [h1]; exact jsToLower_fix r hlfix
  have step2 : normalizeHost r = toASCII r := by
    show toASCII (if jsStartsWith (jsToLower (jsTrim r)) "www."
        then jsSlice4 (jsToLower (jsTrim r)) else jsToLower (jsTrim r)) =
      toASCII r
    rw [step1, h2]
    simp
  rw [step2]
  exact toASCII_id_of_basic r hbasic

/-- Witness for the amended C10 at `www.nrk.no`, whose normalized form
`nrk.no` is trimmed and no longer starts with `www.`. -/
theorem C10_witness :
    jsTrim (normalizeHost "www.nrk.no") = normalizeHost "www.nrk.no" ∧
    jsStartsWith (normalizeHost "www.nrk.no") "www." = false ∧
    normalizeHost (normalizeHost "www.nrk.no") = normalizeHost "www.nrk.no" :=
  ⟨by decide, by decide,
    C10_normalizeHost_idem_amended "www.nrk.no" (by decide) (by decide)⟩

/-- Counterexample to C10 as stated: `normalizeHost` strips only one
leading `www.`, so it is not idempotent at `www.www.nrk.no`. -/
theorem C10_counterexample :
    normalizeHost "www.www.nrk.no" = "www.nrk.no" ∧
    normalizeHost (normalizeHost "www.www.nrk.no") = "nrk.no" ∧
    normalizeHost (normalizeHost "www.www.nrk.no") ≠
      normalizeHost "www.www.nrk.no" := by
  decide
